import Mathlib

/-!
# Verification of the mint powder-diffraction engine specification

Shallow embedding of `src/diffraction.h` and `src/diffraction.cpp` (classes
`DiffractionPeak`, `CalculatedPeak`, `Diffraction`, `ExperimentalPattern`,
`CalculatedPattern`).  C++ `double` arithmetic is modelled by real numbers;
external collaborators (`Vector3D`, `Matrix3D`, symmetry and basis services,
the dlib optimizer and fitting routines) are modelled as abstract parameters,
since their sources are not part of this repository.
-/

set_option maxHeartbeats 1000000

open List

/-- 3-component real vector, modelling `Vector3D`. -/
abbrev V3 := Fin 3 → ℝ

/-- 3x3 real matrix, modelling `Matrix3D`. -/
abbrev M3 := Matrix (Fin 3) (Fin 3) ℝ

/-- Dot product of two `Vector3D`s (`operator*`). -/
def dotV (u v : V3) : ℝ := u 0 * v 0 + u 1 * v 1 + u 2 * v 2

/-- `Vector3D::magnitude`. -/
noncomputable def magV (v : V3) : ℝ := Real.sqrt (dotV v v)

/-- `Num<double>::toRadians`. -/
noncomputable def toRadians (x : ℝ) : ℝ := x * Real.pi / 180

/-- `Num<double>::toDegrees`. -/
noncomputable def toDegrees (x : ℝ) : ℝ := x * 180 / Real.pi

/-- The `Method` enum of diffraction.h (`DM_XRAY, DM_NEUTRON, DM_SIMPLE, DM_NONE`). -/
inductive DMethod
| xray
| neutron
| simple
| nodiff
deriving DecidableEq

/-- The argument handed to `asin` in `CalculatedPeak::getDiffractionAngle`:
`(basis.inverse() * hkl).magnitude() * wavelength / 2`. -/
noncomputable def asinArg (basisInverse : M3) (hkl : V3) (wavelength : ℝ) : ℝ :=
  magV (Matrix.mulVec basisInverse hkl) * wavelength / 2

/-- `CalculatedPeak::getDiffractionAngle` (diffraction.h, lines 855-863):
`asin(arg)` for `arg` in `[-1,1]`, otherwise clamped to `±pi/2`. -/
noncomputable def getDiffractionAngle (basisInverse : M3) (hkl : V3) (wavelength : ℝ) : ℝ :=
  let arg := asinArg basisInverse hkl wavelength
  if -1 ≤ arg ∧ arg ≤ 1 then Real.arcsin arg
  else if arg < -1 then -(Real.pi / 2)
  else Real.pi / 2

/-- `_twoThetaRad` as stored by `CalculatedPeak::updatePeakPosition`
(diffraction.h, lines 163-172): `2 * getDiffractionAngle(...)`. -/
noncomputable def twoThetaRadOf (basisInverse : M3) (hkl : V3) (wavelength : ℝ) : ℝ :=
  2 * getDiffractionAngle basisInverse hkl wavelength

/-- `CalculatedPeak::getLPFactor`. -/
noncomputable def getLPFactor (angle : ℝ) : ℝ :=
  (1 + Real.cos (2 * angle) ^ 2) / (Real.cos angle * Real.sin angle ^ 2)

/-- `CalculatedPeak::thermalFactor(angle, wavelength, Bfactor = 1)`
(diffraction.h, lines 841-844): `exp(-Bfactor * (sin(angle)/wavelength)^2)`.
The third parameter has C++ default value 1. -/
noncomputable def thermalFactor (angle wavelength Bfactor : ℝ) : ℝ :=
  Real.exp (-Bfactor * (Real.sin angle / wavelength) ^ 2)

/-- `CalculatedPeak::atomicScatteringFactor` (diffraction.cpp, lines 2878-2893). -/
noncomputable def atomicScatteringFactor (atf : ℕ → ℝ) (angle wavelength : ℝ) : ℝ :=
  let s := Real.sin angle / wavelength
  let s2 := s * s
  atf 0 * Real.exp (-(atf 4) * s2) + atf 1 * Real.exp (-(atf 5) * s2) +
    atf 2 * Real.exp (-(atf 6) * s2) + atf 3 * Real.exp (-(atf 7) * s2) + atf 8

/-- One orbit of symmetrically-equivalent atoms, as consumed by
`structureFactorSquared`: each atom is (fractional coordinates, occupancy). -/
structure OrbitAtoms where
  atoms : List (V3 × ℝ)

/-- The contribution of one orbit to the running (real, imaginary) sums of
`CalculatedPeak::structureFactorSquared`: for each atom,
`pre = scatteringFactor * thermFactor * occupancy`, added as
`pre * cos(dot)` and `pre * sin(dot)` with `dot = 2*pi*(hkl * fractional)`. -/
noncomputable def orbitSums (sf tf : ℝ) (hkl : V3) (atoms : List (V3 × ℝ)) : ℝ × ℝ :=
  ((atoms.map fun a => sf * tf * a.2 * Real.cos (2 * Real.pi * dotV hkl a.1)).sum,
   (atoms.map fun a => sf * tf * a.2 * Real.sin (2 * Real.pi * dotV hkl a.1)).sum)

/-- The orbit loop of `CalculatedPeak::structureFactorSquared`
(diffraction.cpp, lines 1396-1435).  NOTE: the C++ source calls
`thermalFactor(angle, BFactors[i])` with only two arguments, so `BFactors[i]`
is bound to the `wavelength` parameter of `thermalFactor` and its `Bfactor`
parameter keeps its default value 1; the embedding reproduces that call. -/
noncomputable def sfSums (method : DMethod) (wavelength angle : ℝ) (hkl : V3) :
    List OrbitAtoms → List (ℕ → ℝ) → List ℝ → ℝ × ℝ
  | [], _, _ => (0, 0)
  | o :: os, atfs, Bs =>
      let sf := atomicScatteringFactor (atfs.headD fun _ => 0) angle wavelength
      let tf := if method = DMethod.simple then 1 else thermalFactor angle (Bs.headD 0) 1
      let cur := orbitSums sf tf hkl o.atoms
      let rest := sfSums method wavelength angle hkl os atfs.tail Bs.tail
      (cur.1 + rest.1, cur.2 + rest.2)

/-- `CalculatedPeak::structureFactorSquared`: squared magnitude of the summed
scattering contributions. -/
noncomputable def structureFactorSquared (method : DMethod) (wavelength : ℝ)
    (orbits : List OrbitAtoms) (angle : ℝ) (hkl : V3)
    (BFactors : List ℝ) (atfParams : List (ℕ → ℝ)) : ℝ :=
  let s := sfSums method wavelength angle hkl orbits atfParams BFactors
  s.1 * s.1 + s.2 * s.2

/-- The orbit loop as the specification states it: the thermal attenuation is
`exp(-B * (sin(theta)/lambda)^2)` with the orbit's B factor and the radiation
wavelength (1 when the method is SIMPLE).  Written from the spec sentence for
comparison with `sfSums`. -/
noncomputable def sfSumsSpec (method : DMethod) (wavelength angle : ℝ) (hkl : V3) :
    List OrbitAtoms → List (ℕ → ℝ) → List ℝ → ℝ × ℝ
  | [], _, _ => (0, 0)
  | o :: os, atfs, Bs =>
      let sf := atomicScatteringFactor (atfs.headD fun _ => 0) angle wavelength
      let tf := if method = DMethod.simple then 1 else thermalFactor angle wavelength (Bs.headD 0)
      let cur := orbitSums sf tf hkl o.atoms
      let rest := sfSumsSpec method wavelength angle hkl os atfs.tail Bs.tail
      (cur.1 + rest.1, cur.2 + rest.2)

/-- `|F|^2` as the specification describes it (spec, section 4.2). -/
noncomputable def structureFactorSquaredSpec (method : DMethod) (wavelength : ℝ)
    (orbits : List OrbitAtoms) (angle : ℝ) (hkl : V3)
    (BFactors : List ℝ) (atfParams : List (ℕ → ℝ)) : ℝ :=
  let s := sfSumsSpec method wavelength angle hkl orbits atfParams BFactors
  s.1 * s.1 + s.2 * s.2

/-- The form-factor table row with `a1..a4 = 0`, `b1..b4 = 0`, `c = 1`:
a constant scattering factor of 1. -/
def atfConst : ℕ → ℝ := fun j => if j = 8 then 1 else 0

/-- The zero vector. -/
def zero3 : V3 := fun _ => 0

/-- A single orbit holding one atom at the origin with occupancy 1. -/
def orbitO : OrbitAtoms := ⟨[(zero3, 1)]⟩

/-- At wavelength 1, Bragg angle pi/2, a single fully-occupied atom at the
origin with constant form factor 1 and B factor 2, the code's structure
factor is `exp(-1/2)` (it passes the B factor where `thermalFactor` expects
the wavelength, leaving the B-factor parameter at its default 1), while the
specified formula `exp(-B*(sin(theta)/lambda)^2)` gives `exp(-4)`. -/
theorem sf_code_ne_spec :
    structureFactorSquared DMethod.xray 1 [orbitO] (Real.pi / 2) zero3 [2] [atfConst] ≠
      structureFactorSquaredSpec DMethod.xray 1 [orbitO] (Real.pi / 2) zero3 [2] [atfConst] := by
  have hdot : dotV zero3 zero3 = 0 := by norm_num [dotV, zero3]
  have hatf : atomicScatteringFactor atfConst (Real.pi / 2) 1 = 1 := by
    norm_num [atomicScatteringFactor, atfConst]
  simp only [structureFactorSquared, structureFactorSquaredSpec, sfSums, sfSumsSpec,
    orbitSums, orbitO, hdot, hatf, thermalFactor, Real.sin_pi_div_two, List.map,
    List.sum_cons, List.sum_nil, List.headD_cons, List.tail_cons, Real.cos_zero,
    Real.sin_zero, mul_zero, mul_one, one_mul, add_zero, zero_add]
  rw [if_neg (by decide), if_neg (by decide)]
  intro h
  rw [← Real.exp_add, ← Real.exp_add, Real.exp_eq_exp] at h
  norm_num at h

/-- C9 counterexample: the stored angle is not clamped to `[-pi/2, pi/2]`.
With identity inverse basis, `hkl = (4,0,0)` and wavelength 1 the asin
argument is 2, the clamped half-angle is `pi/2`, and the stored
`two_theta_rad` is `pi`, which exceeds `pi/2`. -/
theorem c9_two_theta_not_clamped_half_pi :
    ¬ twoThetaRadOf 1 (![4, 0, 0]) 1 ≤ Real.pi / 2 := by
  have harg : asinArg 1 (![4, 0, 0]) 1 = 2 := by
    simp only [asinArg, Matrix.one_mulVec, magV, dotV]
    norm_num
    rw [show (16 : ℝ) = 4 ^ 2 by norm_num, Real.sqrt_sq (by norm_num)]
    norm_num
  simp only [twoThetaRadOf, getDiffractionAngle, harg]
  rw [if_neg (by norm_num), if_neg (by norm_num)]
  have := Real.pi_pos
  intro h
  nlinarith

/-- C9 amended: the stored angle equals `2*asin(arg)` whenever the argument
lies in `[-1,1]`; the *half*-angle is clamped to `[-pi/2, pi/2]`, so the
stored `two_theta_rad` always lies in `[-pi, pi]` and takes the endpoint
value `pi` (resp. `-pi`) when the argument exceeds 1 (resp. is below -1). -/
theorem c9_two_theta_clamped_amended (binv : M3) (hkl : V3) (wl : ℝ) :
    (-1 ≤ asinArg binv hkl wl ∧ asinArg binv hkl wl ≤ 1 →
      twoThetaRadOf binv hkl wl = 2 * Real.arcsin (asinArg binv hkl wl)) ∧
    (1 < asinArg binv hkl wl → twoThetaRadOf binv hkl wl = Real.pi) ∧
    (asinArg binv hkl wl < -1 → twoThetaRadOf binv hkl wl = -Real.pi) ∧
    -Real.pi ≤ twoThetaRadOf binv hkl wl ∧ twoThetaRadOf binv hkl wl ≤ Real.pi := by
  have hpi := Real.pi_pos
  unfold twoThetaRadOf getDiffractionAngle
  by_cases hin : -1 ≤ asinArg binv hkl wl ∧ asinArg binv hkl wl ≤ 1
  · rw [if_pos hin]
    refine ⟨fun _ => rfl, fun hgt => absurd hin (by intro hc; linarith [hc.2]),
      fun hlt => absurd hin (by intro hc; linarith [hc.1]), ?_, ?_⟩
    · have := Real.neg_pi_div_two_le_arcsin (asinArg binv hkl wl)
      linarith
    · have := Real.arcsin_le_pi_div_two (asinArg binv hkl wl)
      linarith
  · rw [if_neg hin]
    by_cases hlt : asinArg binv hkl wl < -1
    · rw [if_pos hlt]
      exact ⟨fun hc => absurd hc hin, fun hgt => by linarith,
        fun _ => by ring, by linarith, by linarith⟩
    · rw [if_neg hlt]
      refine ⟨fun hc => absurd hc hin, fun _ => by ring, fun hc => absurd hc hlt, ?_, ?_⟩
      · linarith
      · linarith

/-- C++ `std::abs` on doubles, written as a conditional so that concrete
rational instances evaluate by rewriting. -/
def absD {α : Type} [LinearOrderedField α] (x : α) : α := if x < 0 then -x else x

/-- `absD` agrees with the absolute value. -/
theorem absD_eq_abs {α : Type} [LinearOrderedField α] (x : α) : absD x = |x| := by
  unfold absD
  rcases lt_or_le x 0 with h | h
  · rw [if_pos h, abs_of_neg h]
  · rw [if_neg (not_lt.mpr h), abs_of_nonneg h]

/-- A stored diffraction peak (class `DiffractionPeak`): Bragg angle in
degrees, integrated intensity, and the index of the matching peak in the
reference pattern. -/
structure DPeak (α : Type) where
  angle : α
  intensity : α
  patternIndex : ℤ
deriving DecidableEq

instance {α : Type} [LinearOrderedField α] : Inhabited (DPeak α) := ⟨⟨0, 0, -1⟩⟩

/-- The `DiffractionPeak(twoThetaDegrees, intensity)` constructor:
`patternIndex` starts at -1. -/
def mkDiffractionPeak {α : Type} [LinearOrderedField α] (angle intensity : α) : DPeak α :=
  ⟨angle, intensity, -1⟩

/-- The nearest-reference search of `Diffraction::matchPeaksToReference`
(diffraction.cpp, lines 1354-1366) for calculated peak `t` with angle `a`:
`nearIndex` starts at 0 but `nearDif` is initialized from
`referencePeaks[thisPeak]` (the C++ source indexes the reference list with
the calculated peak's index `t`, not with 0); the scan then runs over
`refPeak = 1, ...`.  Out-of-range vector reads are modelled by `getD` with
the default peak. -/
def nearestRef {α : Type} [LinearOrderedField α] (refPeaks : List (DPeak α))
    (t : ℕ) (a : α) : ℕ × α :=
  (List.range' 1 (refPeaks.length - 1)).foldl
    (fun st r =>
      let cur := absD (a - (refPeaks.getD r default).angle)
      if cur < st.2 then (r, cur) else st)
    (0, absD (a - (refPeaks.getD t default).angle))

/-- Result of peak matching: the (possibly updated) list of this pattern's
peaks, `_matchingPeaks` and `_unmatchedPeaks`. -/
structure MatchResult (α : Type) where
  peaks : List (DPeak α)
  matching : List (List ℕ)
  unmatched : List ℕ
deriving DecidableEq

/-- `Diffraction::matchPeaksToReference` (diffraction.cpp, lines 1333-1382):
for each peak of this pattern, find the nearest reference peak via
`nearestRef`; if the distance exceeds the tolerance 0.15, mark the peak
unmatched (`patternIndex = -1`) and record it in `_unmatchedPeaks`, otherwise
set its `patternIndex` and append it to that reference peak's bucket. -/
def matchPeaksToReference {α : Type} [LinearOrderedField α]
    (thisPeaks refPeaks : List (DPeak α)) : MatchResult α :=
  (List.range thisPeaks.length).foldl
    (fun st t =>
      let a := (st.peaks.getD t default).angle
      let near := nearestRef refPeaks t a
      if 15 / 100 < near.2 then
        { st with
          peaks := st.peaks.set t { st.peaks.getD t default with patternIndex := -1 },
          unmatched := st.unmatched ++ [t] }
      else
        { st with
          peaks := st.peaks.set t { st.peaks.getD t default with patternIndex := near.1 },
          matching := st.matching.set near.1 ((st.matching.getD near.1 []) ++ [t]) })
    ⟨thisPeaks, List.replicate refPeaks.length [], []⟩

/-- `CalculatedPattern::matchPeaksToReference` (diffraction.cpp, lines
1318-1324): first sets every stored reflection's `patternIndex` to its own
list position, then calls the base-class matcher.  The base class operates on
the copy returned by `getDiffractedPeaks()`, so its `patternIndex` writes are
made to a temporary vector and the stored reflections keep the indices set
here; only `_matchingPeaks` and `_unmatchedPeaks` persist. -/
def calcMatchPeaksToReference {α : Type} [LinearOrderedField α]
    (reflections refPeaks : List (DPeak α)) : MatchResult α :=
  let pre := reflections.mapIdx fun i p => { p with patternIndex := (i : ℤ) }
  let base := matchPeaksToReference pre refPeaks
  { peaks := pre, matching := base.matching, unmatched := base.unmatched }

/-- Calculated peaks for the C2 counterexample: angles 10 and 50 degrees. -/
def thisC2 : List (DPeak ℚ) := [⟨10, 100, -1⟩, ⟨50, 100, -1⟩]

/-- Reference peaks for the C2 counterexample: angles 50.05 and 10.05. -/
def refC2 : List (DPeak ℚ) := [⟨1001 / 20, 100, -1⟩, ⟨201 / 20, 100, -1⟩]

/-- C2: the matcher does not select the reference peak minimizing the angular
distance.  The calculated peak at 50 degrees lies 0.05 degrees from reference
peak 0 (at 50.05), within the 0.15 tolerance, yet the code records it as
unmatched: the initial `nearDif` is measured against `referencePeaks[1]`
(at 10.05) and reference peak 0's distance is never examined. -/
theorem c2_matching_not_nearest :
    (matchPeaksToReference thisC2 refC2).unmatched = [1] ∧
    (matchPeaksToReference thisC2 refC2).matching = [[], [0]] ∧
    absD ((thisC2.getD 1 default).angle - (refC2.getD 0 default).angle) ≤ 15 / 100 := by
  norm_num [matchPeaksToReference, nearestRef, thisC2, refC2, absD,
    List.range_succ, List.range']
  decide

/-- Stored reflections for the C3 counterexample: angles 10 and 50. -/
def reflC3 : List (DPeak ℚ) := [⟨10, 100, -1⟩, ⟨50, 100, -1⟩]

/-- Reference peaks for the C3 counterexample: angles 10.05 and 49. -/
def refC3 : List (DPeak ℚ) := [⟨201 / 20, 100, -1⟩, ⟨49, 100, -1⟩]

/-- C3: after `CalculatedPattern::matchPeaksToReference`, the stored
reflections violate the claimed invariant: reflection 1 is recorded in the
unmatched list, yet its stored `patternIndex` is 1 (its own list position),
not -1 — the base class marked only a discarded temporary copy. -/
theorem c3_pattern_index_not_persisted :
    ((calcMatchPeaksToReference reflC3 refC3).peaks.map (·.patternIndex)) = [0, 1] ∧
    (calcMatchPeaksToReference reflC3 refC3).unmatched = [1] := by
  norm_num [calcMatchPeaksToReference, matchPeaksToReference, nearestRef, reflC3, refC3,
    absD, List.range_succ, List.range', List.mapIdx_cons, List.mapIdx_nil]

/-- Lexicographic order on (angle, intensity) pairs: `std::sort` over
`std::pair<double,double>` in `ExperimentalPattern::set`. -/
def pairLE {α : Type} [LinearOrderedField α] (p q : α × α) : Prop :=
  p.1 < q.1 ∨ (p.1 = q.1 ∧ p.2 ≤ q.2)

instance {α : Type} [LinearOrderedField α] : DecidableRel (pairLE (α := α)) :=
  fun p q => inferInstanceAs (Decidable (_ ∨ _))

/-- One iteration of Part #5 of `ExperimentalPattern::getPeakIntensities`
(diffraction.cpp, lines 2407-2448): a negative integrated intensity, or a
peak maximum outside `[minTT, maxTT]`, raises the C++ `throw 10`, modelled
as `Except.error`; otherwise the new peak is appended. -/
def peakCheckStep {α : Type} [LinearOrderedField α] (minTT maxTT : α)
    (acc : List (DPeak α)) (lp : α × α) : Except Unit (List (DPeak α)) :=
  if lp.2 < 0 then .error ()
  else if lp.1 < minTT ∨ maxTT < lp.1 then .error ()
  else .ok (acc ++ [mkDiffractionPeak lp.1 lp.2])

/-- Part #5 of `ExperimentalPattern::getPeakIntensities`.  For each fitted
peak the external routines deliver the numerical maximum of its pseudo-Voigt
(`location`) and the adaptive-Simpson integral over the group window
(`intensity`); these enter the model as the `fitted` list of
(location, intensity) pairs. -/
def getPeakIntensities {α : Type} [LinearOrderedField α] (minTT maxTT : α)
    (fitted : List (α × α)) : Except Unit (List (DPeak α)) :=
  fitted.foldlM (peakCheckStep minTT maxTT) []

/-- The experimental-pattern state relevant to C8: the continuous raw arrays
and the derived peak list. -/
structure ExpPattern (α : Type) where
  continuousTwoTheta : List α
  continuousIntensity : List α
  diffractionPeaks : List (DPeak α)
deriving DecidableEq

/-- `_minTwoTheta` of the raw branch: `*std::min_element` over the angles. -/
def minTwoThetaOf {α : Type} [LinearOrderedField α] (tts : List α) : α :=
  tts.foldl min (tts.headD 0)

/-- `_maxTwoTheta` of the raw branch: `*std::max_element` over the angles. -/
def maxTwoThetaOf {α : Type} [LinearOrderedField α] (tts : List α) : α :=
  tts.foldl max (tts.headD 0)

/-- The raw-pattern branch of `ExperimentalPattern::set` (diffraction.cpp,
lines 1486-1583): the (angle, intensity) pairs are sorted and stored in the
continuous arrays, min/max angles recorded, and `getPeakIntensities` runs
inside a try/catch whose handler clears `_diffractionPeaks`.  Smoothing,
background removal and peak location only feed the fitting pipeline, whose
per-peak numeric output is the `fitted` oracle list. -/
def setRawPattern {α : Type} [LinearOrderedField α] (pairs fitted : List (α × α)) :
    ExpPattern α :=
  let sorted := List.insertionSort pairLE pairs
  let tts := sorted.map Prod.fst
  let its := sorted.map Prod.snd
  let peaks :=
    match getPeakIntensities (minTwoThetaOf tts) (maxTwoThetaOf tts) fitted with
    | .ok l => l
    | .error _ => []
  ⟨tts, its, peaks⟩

/-- The checking fold raises as soon as the remaining fitted list holds a bad
entry, whatever peaks were accepted before it. -/
theorem foldlM_peakCheck_error {α : Type} [LinearOrderedField α] (minTT maxTT : α) :
    ∀ (l : List (α × α)) (acc : List (DPeak α)),
      (∃ lp ∈ l, lp.2 < 0 ∨ lp.1 < minTT ∨ maxTT < lp.1) →
      l.foldlM (peakCheckStep minTT maxTT) acc = .error () := by
  intro l
  induction l with
  | nil =>
      intro acc h
      obtain ⟨lp, hm, _⟩ := h
      cases hm
  | cons hd tl ih =>
      intro acc h
      rw [List.foldlM_cons]
      by_cases h1 : hd.2 < 0
      · rw [peakCheckStep, if_pos h1]
        rfl
      · by_cases h2 : hd.1 < minTT ∨ maxTT < hd.1
        · rw [peakCheckStep, if_neg h1, if_pos h2]
          rfl
        · rw [peakCheckStep, if_neg h1, if_neg h2]
          have htl : ∃ lp ∈ tl, lp.2 < 0 ∨ lp.1 < minTT ∨ maxTT < lp.1 := by
            obtain ⟨lp, hm, hbad⟩ := h
            rcases List.mem_cons.mp hm with heq | hm2
            · subst heq
              rcases hbad with hb | hb
              · exact absurd hb h1
              · exact absurd hb h2
            · exact ⟨lp, hm2, hbad⟩
          exact ih _ htl

/-- C8: when any fitted pseudo-Voigt has negative integrated intensity or a
maximum outside the measured two-theta range, the whole stored peak list ends
empty — including peaks that had already passed the checks — while the
continuous raw arrays remain the sorted input data. -/
theorem c8_failed_processing_discards_peaks {α : Type} [LinearOrderedField α]
    (pairs fitted : List (α × α))
    (h : ∃ lp ∈ fitted,
        lp.2 < 0 ∨
        lp.1 < minTwoThetaOf ((List.insertionSort pairLE pairs).map Prod.fst) ∨
        maxTwoThetaOf ((List.insertionSort pairLE pairs).map Prod.fst) < lp.1) :
    (setRawPattern pairs fitted).diffractionPeaks = [] ∧
    (setRawPattern pairs fitted).continuousTwoTheta =
      (List.insertionSort pairLE pairs).map Prod.fst ∧
    (setRawPattern pairs fitted).continuousIntensity =
      (List.insertionSort pairLE pairs).map Prod.snd := by
  have he := foldlM_peakCheck_error
    (minTwoThetaOf ((List.insertionSort pairLE pairs).map Prod.fst))
    (maxTwoThetaOf ((List.insertionSort pairLE pairs).map Prod.fst)) fitted [] h
  simp only [setRawPattern, getPeakIntensities, he]
  exact ⟨trivial, trivial, trivial⟩

/-- C8 witness: raw pattern (1,5),(2,7); the first fitted peak (at 3/2 with
intensity 4) passes the checks, the second has intensity -1 and fails; the
peak list is discarded while the continuous arrays stay. -/
theorem c8_failed_processing_discards_peaks_app :
    (setRawPattern [((1 : ℚ), 5), (2, 7)] [(3 / 2, 4), (1, -1)]).diffractionPeaks = [] ∧
    (setRawPattern [((1 : ℚ), 5), (2, 7)] [(3 / 2, 4), (1, -1)]).continuousTwoTheta =
      (List.insertionSort pairLE [((1 : ℚ), 5), (2, 7)]).map Prod.fst ∧
    (setRawPattern [((1 : ℚ), 5), (2, 7)] [(3 / 2, 4), (1, -1)]).continuousIntensity =
      (List.insertionSort pairLE [((1 : ℚ), 5), (2, 7)]).map Prod.snd :=
  c8_failed_processing_discards_peaks _ _ ⟨(1, -1), by norm_num, Or.inl (by norm_num)⟩

/-- The `Rmethod` enum of diffraction.h (`DR_ABS, DR_SQUARED, DR_RIETVELD`). -/
inductive Rmethod
| drAbs
| drSquared
| drRietveld
deriving DecidableEq

/-- The total absolute error of `Diffraction::getCurrentRFactor` at scale `s`
(diffraction.cpp, lines 1838-1842 and 1863-1867):
`sum_j |ref_j - s*matched_j| + sum_j |s*unmatched_j|`, where `pairs` zips each
reference intensity with the summed matched calculated intensity. -/
def absError {α : Type} [LinearOrderedField α] (s : α) (pairs : List (α × α))
    (unm : List α) : α :=
  (pairs.map fun q => absD (q.1 - s * q.2)).sum + (unm.map fun u => absD (s * u)).sum

/-- One candidate of the DR_ABS optimal-scale scan (diffraction.cpp, lines
1835-1846): a candidate `s_i = ref_i / matched_i` (skipped when
`matched_i == 0`) replaces the running minimum when its error is smaller. -/
def drAbsScanStep {α : Type} [LinearOrderedField α] (pairs : List (α × α))
    (unm : List α) (st : α × α) (q : α × α) : α × α :=
  if q.2 = 0 then st
  else if absError (q.1 / q.2) pairs unm < st.1 then
    (absError (q.1 / q.2) pairs unm, q.1 / q.2)
  else st

/-- The DR_ABS optimal-scale scan: `minimumError` starts at the literal
`1e100` and `_optimalScale` at 1.  Returns (minimum error, optimal scale). -/
def drAbsScan {α : Type} [LinearOrderedField α] (pairs : List (α × α))
    (unm : List α) : α × α :=
  pairs.foldl (drAbsScanStep pairs unm) (10 ^ 100, 1)

/-- Part #2 of `Diffraction::getCurrentRFactor`: the normalization factor. -/
def rNorm {α : Type} [LinearOrderedField α] (method : Rmethod) (ref : List α) : α :=
  match method with
  | Rmethod.drSquared => (ref.map fun r => r * r).sum
  | _ => ref.sum

/-- Part #3 of `Diffraction::getCurrentRFactor`: the optimal scale factor
(closed form for DR_SQUARED, the sentinel scan for DR_ABS). -/
def rScale {α : Type} [LinearOrderedField α] (method : Rmethod)
    (ref matched unm : List α) : α :=
  match method with
  | Rmethod.drSquared =>
      (List.zipWith (fun m r => m * r) matched ref).sum /
        ((matched.map fun m => m * m).sum + (unm.map fun u => u * u).sum)
  | _ => (drAbsScan (ref.zip matched) unm).2

/-- Part #5 of `Diffraction::getCurrentRFactor`: the R factor at a given
scale. -/
def rValue {α : Type} [LinearOrderedField α] (method : Rmethod) (scale : α)
    (ref matched unm : List α) : α :=
  match method with
  | Rmethod.drSquared =>
      (((ref.zip matched).map fun q => (q.1 - scale * q.2) ^ 2).sum +
        (unm.map fun u => (scale * u) ^ 2).sum) / rNorm method ref
  | _ => absError scale (ref.zip matched) unm / rNorm method ref

/-- `Diffraction::getCurrentRFactor` (diffraction.cpp, lines 1766-1877),
returning (R factor, `_optimalScale`).  `ref` holds the reference peak
intensities, `matched` the per-reference-peak sums of matching calculated
intensities (Part #1), and `unm` the intensities of unmatched calculated
peaks; the claims quantify over these aggregated lists directly.  Division
by zero is the Lean convention `x / 0 = 0`. -/
def getCurrentRFactor {α : Type} [LinearOrderedField α] (method : Rmethod)
    (ref matched unm : List α) : α × α :=
  (rValue method (rScale method ref matched unm) ref matched unm,
   rScale method ref matched unm)

/-- Scaling behaviour of `absD` under a nonnegative factor. -/
theorem absD_mul_left {α : Type} [LinearOrderedField α] {a : α} (ha : 0 ≤ a) (x : α) :
    absD (a * x) = a * absD x := by
  rw [absD_eq_abs, absD_eq_abs, abs_mul, abs_of_nonneg ha]

/-- Scaling the reference intensities scales the DR_ABS error linearly. -/
theorem absError_scale {α : Type} [LinearOrderedField α] {a : α} (ha : 0 ≤ a)
    (s : α) (pairs : List (α × α)) (unm : List α) :
    absError (a * s) (pairs.map (Prod.map (a * ·) id)) unm = a * absError s pairs unm := by
  unfold absError
  rw [List.map_map, mul_add]
  have h1 : ((fun q : α × α => absD (q.1 - a * s * q.2)) ∘ Prod.map (a * ·) id) =
      fun q : α × α => a * absD (q.1 - s * q.2) := by
    funext q
    show absD (a * q.1 - a * s * q.2) = a * absD (q.1 - s * q.2)
    rw [show a * q.1 - a * s * q.2 = a * (q.1 - s * q.2) by ring, absD_mul_left ha]
  have h2 : (fun u => absD (a * s * u)) = fun u : α => a * absD (s * u) := by
    funext u
    rw [show a * s * u = a * (s * u) by ring, absD_mul_left ha]
  rw [h1, h2, List.sum_map_mul_left, List.sum_map_mul_left]

/-- One scan step commutes with scaling of the reference intensities. -/
theorem drAbsScanStep_scale {α : Type} [LinearOrderedField α] {a : α} (ha : 0 < a)
    (pairs : List (α × α)) (unm : List α) (st q : α × α) :
    drAbsScanStep (pairs.map (Prod.map (a * ·) id)) unm (a * st.1, a * st.2)
        (Prod.map (a * ·) id q) =
      (a * (drAbsScanStep pairs unm st q).1, a * (drAbsScanStep pairs unm st q).2) := by
  unfold drAbsScanStep
  by_cases hq : q.2 = 0
  · rw [if_pos (show (Prod.map (a * ·) id q).2 = 0 from hq), if_pos hq]
  · rw [if_neg (show ¬(Prod.map (a * ·) id q).2 = 0 from hq), if_neg hq]
    have hsc : (Prod.map (a * ·) id q).1 / (Prod.map (a * ·) id q).2 =
        a * (q.1 / q.2) := by
      show a * q.1 / q.2 = a * (q.1 / q.2)
      rw [mul_div_assoc]
    rw [hsc, absError_scale ha.le]
    by_cases he : absError (q.1 / q.2) pairs unm < st.1
    · rw [if_pos ((mul_lt_mul_left ha).mpr he), if_pos he]
    · rw [if_neg (fun hc => he ((mul_lt_mul_left ha).mp hc)), if_neg he]

/-- The scan fold commutes with scaling once both runs share a
correspondingly scaled state. -/
theorem drAbsScan_foldl_scale {α : Type} [LinearOrderedField α] {a : α} (ha : 0 < a)
    (pairs : List (α × α)) (unm : List α) :
    ∀ (l : List (α × α)) (st : α × α),
      List.foldl (drAbsScanStep (pairs.map (Prod.map (a * ·) id)) unm)
          (a * st.1, a * st.2) (l.map (Prod.map (a * ·) id)) =
        (a * (List.foldl (drAbsScanStep pairs unm) st l).1,
         a * (List.foldl (drAbsScanStep pairs unm) st l).2) := by
  intro l
  induction l with
  | nil => intro st; rfl
  | cons q rest ih =>
      intro st
      rw [List.map_cons, List.foldl_cons, List.foldl_cons,
        drAbsScanStep_scale ha pairs unm st q]
      exact ih (drAbsScanStep pairs unm st q)

/-- When every candidate error lies below the `1e100` sentinel both before
and after scaling, and at least one candidate exists, the scan's result
scales linearly with the reference intensities. -/
theorem drAbsScan_scale {α : Type} [LinearOrderedField α] {a : α} (ha : 0 < a)
    (pairs : List (α × α)) (unm : List α)
    (hbound : ∀ q ∈ pairs, q.2 ≠ 0 →
        absError (q.1 / q.2) pairs unm < 10 ^ 100 ∧
        a * absError (q.1 / q.2) pairs unm < 10 ^ 100)
    (hcand : ∃ q ∈ pairs, q.2 ≠ 0) :
    drAbsScan (pairs.map (Prod.map (a * ·) id)) unm =
      (a * (drAbsScan pairs unm).1, a * (drAbsScan pairs unm).2) := by
  unfold drAbsScan
  have main : ∀ (l : List (α × α)),
      (∀ q ∈ l, q.2 ≠ 0 →
        absError (q.1 / q.2) pairs unm < 10 ^ 100 ∧
        a * absError (q.1 / q.2) pairs unm < 10 ^ 100) →
      (∃ q ∈ l, q.2 ≠ 0) →
      List.foldl (drAbsScanStep (pairs.map (Prod.map (a * ·) id)) unm)
          ((10 : α) ^ 100, 1) (l.map (Prod.map (a * ·) id)) =
        (a * (List.foldl (drAbsScanStep pairs unm) ((10 : α) ^ 100, 1) l).1,
         a * (List.foldl (drAbsScanStep pairs unm) ((10 : α) ^ 100, 1) l).2) := by
    intro l
    induction l with
    | nil =>
        intro _ hc
        obtain ⟨q, hq, _⟩ := hc
        cases hq
    | cons q rest ih =>
        intro hb hc
        rw [List.map_cons, List.foldl_cons, List.foldl_cons]
        by_cases hq : q.2 = 0
        · have hskip : drAbsScanStep pairs unm ((10 : α) ^ 100, 1) q =
              ((10 : α) ^ 100, 1) := by
            unfold drAbsScanStep
            rw [if_pos hq]
          have hskip2 : drAbsScanStep (pairs.map (Prod.map (a * ·) id)) unm
              ((10 : α) ^ 100, 1) (Prod.map (a * ·) id q) = ((10 : α) ^ 100, 1) := by
            unfold drAbsScanStep
            rw [if_pos (show (Prod.map (a * ·) id q).2 = 0 from hq)]
          rw [hskip, hskip2]
          refine ih (fun p hp => hb p (List.mem_cons_of_mem _ hp)) ?_
          obtain ⟨p, hp, hp2⟩ := hc
          rcases List.mem_cons.mp hp with heq | hm
          · subst heq; exact absurd hq hp2
          · exact ⟨p, hm, hp2⟩
        · obtain ⟨he1, he2⟩ := hb q (List.mem_cons_self _ _) hq
          have hupd : drAbsScanStep pairs unm ((10 : α) ^ 100, 1) q =
              (absError (q.1 / q.2) pairs unm, q.1 / q.2) := by
            unfold drAbsScanStep
            rw [if_neg hq, if_pos he1]
          have hupd2 : drAbsScanStep (pairs.map (Prod.map (a * ·) id)) unm
              ((10 : α) ^ 100, 1) (Prod.map (a * ·) id q) =
              (a * absError (q.1 / q.2) pairs unm, a * (q.1 / q.2)) := by
            unfold drAbsScanStep
            rw [if_neg (show ¬(Prod.map (a * ·) id q).2 = 0 from hq)]
            have hsc : (Prod.map (a * ·) id q).1 / (Prod.map (a * ·) id q).2 =
                a * (q.1 / q.2) := by
              show a * q.1 / q.2 = a * (q.1 / q.2)
              rw [mul_div_assoc]
            rw [hsc, absError_scale ha.le, if_pos he2]
          rw [hupd, hupd2]
          exact drAbsScan_foldl_scale ha pairs unm rest
            (absError (q.1 / q.2) pairs unm, q.1 / q.2)
  exact main pairs hbound hcand

/-- Summing a left-scaled list. -/
theorem sum_map_scale {α : Type} [LinearOrderedField α] (a : α) :
    ∀ l : List α, (l.map (a * ·)).sum = a * l.sum := by
  intro l
  induction l with
  | nil => simp
  | cons x xs ih => simp [ih, mul_add]

/-- C10 amended: multiplying every reference intensity by a positive `a`
leaves the DR_ABS and DR_SQUARED R factors unchanged and multiplies the
reported optimal scale by `a`, PROVIDED at least one reference peak has a
nonzero matched sum and every DR_ABS candidate error stays below the `1e100`
sentinel both before and after scaling. -/
theorem c10_scale_invariance_amended {α : Type} [LinearOrderedField α]
    (a : α) (ref matched unm : List α) (ha : 0 < a)
    (hcand : ∃ q ∈ ref.zip matched, q.2 ≠ 0)
    (hbound : ∀ q ∈ ref.zip matched, q.2 ≠ 0 →
        absError (q.1 / q.2) (ref.zip matched) unm < 10 ^ 100 ∧
        a * absError (q.1 / q.2) (ref.zip matched) unm < 10 ^ 100) :
    (getCurrentRFactor Rmethod.drAbs (ref.map (a * ·)) matched unm).1 =
      (getCurrentRFactor Rmethod.drAbs ref matched unm).1 ∧
    (getCurrentRFactor Rmethod.drAbs (ref.map (a * ·)) matched unm).2 =
      a * (getCurrentRFactor Rmethod.drAbs ref matched unm).2 ∧
    (getCurrentRFactor Rmethod.drSquared (ref.map (a * ·)) matched unm).1 =
      (getCurrentRFactor Rmethod.drSquared ref matched unm).1 ∧
    (getCurrentRFactor Rmethod.drSquared (ref.map (a * ·)) matched unm).2 =
      a * (getCurrentRFactor Rmethod.drSquared ref matched unm).2 := by
  have hzip : (ref.map (a * ·)).zip matched =
      (ref.zip matched).map (Prod.map (a * ·) id) := List.zip_map_left _ _ _
  have hscan := drAbsScan_scale ha (ref.zip matched) unm hbound hcand
  have hscale2 : (drAbsScan ((ref.zip matched).map (Prod.map (a * ·) id)) unm).2 =
      a * (drAbsScan (ref.zip matched) unm).2 := by rw [hscan]
  have hsum : (ref.map (a * ·)).sum = a * ref.sum := sum_map_scale a ref
  have hnormsq : ((ref.map (a * ·)).map fun r => r * r).sum =
      a ^ 2 * (ref.map fun r => r * r).sum := by
    rw [List.map_map]
    have : ((fun r : α => r * r) ∘ (a * ·)) = fun r : α => a ^ 2 * (r * r) := by
      funext r
      show a * r * (a * r) = a ^ 2 * (r * r)
      ring
    rw [this, List.sum_map_mul_left]
  have hnum : (List.zipWith (fun m r => m * r) matched (ref.map (a * ·))).sum =
      a * (List.zipWith (fun m r => m * r) matched ref).sum := by
    rw [List.zipWith_map_right]
    have : (List.zipWith (fun m r => m * (a * r)) matched ref) =
        (List.zipWith (fun m r => m * r) matched ref).map (a * ·) := by
      rw [List.map_zipWith]
      congr 1
      funext m r
      ring
    rw [this, sum_map_scale]
  refine ⟨?_, ?_, ?_, ?_⟩
  · simp only [getCurrentRFactor, rValue, rScale, rNorm]
    rw [hzip, hscale2, absError_scale ha.le, hsum,
      mul_div_mul_left _ _ (ne_of_gt ha)]
  · simp only [getCurrentRFactor, rValue, rScale, rNorm]
    rw [hzip, hscale2]
  · simp only [getCurrentRFactor, rValue, rScale, rNorm]
    rw [hzip, hnum, hnormsq, mul_div_assoc]
    have hterm : ((ref.zip matched).map (Prod.map (a * ·) id)).map
        (fun q => (q.1 - a * ((List.zipWith (fun m r => m * r) matched ref).sum /
          ((matched.map fun m => m * m).sum + (unm.map fun u => u * u).sum)) * q.2) ^ 2) =
        ((ref.zip matched).map
          (fun q => (q.1 - ((List.zipWith (fun m r => m * r) matched ref).sum /
            ((matched.map fun m => m * m).sum + (unm.map fun u => u * u).sum)) * q.2) ^ 2)).map
          (a ^ 2 * ·) := by
      rw [List.map_map, List.map_map]
      congr 1
      funext q
      show (a * q.1 - a * _ * q.2) ^ 2 = a ^ 2 * (q.1 - _ * q.2) ^ 2
      rw [show a * q.1 - a * ((List.zipWith (fun m r => m * r) matched ref).sum /
            ((matched.map fun m => m * m).sum + (unm.map fun u => u * u).sum)) * q.2 =
          a * (q.1 - ((List.zipWith (fun m r => m * r) matched ref).sum /
            ((matched.map fun m => m * m).sum + (unm.map fun u => u * u).sum)) * q.2) by ring,
        mul_pow]
    have hunm : unm.map (fun u => (a * ((List.zipWith (fun m r => m * r) matched ref).sum /
          ((matched.map fun m => m * m).sum + (unm.map fun u => u * u).sum)) * u) ^ 2) =
        (unm.map (fun u => (((List.zipWith (fun m r => m * r) matched ref).sum /
          ((matched.map fun m => m * m).sum + (unm.map fun u => u * u).sum)) * u) ^ 2)).map
          (a ^ 2 * ·) := by
      rw [List.map_map]
      congr 1
      funext u
      show (a * _ * u) ^ 2 = a ^ 2 * (_ * u) ^ 2
      rw [show a * ((List.zipWith (fun m r => m * r) matched ref).sum /
            ((matched.map fun m => m * m).sum + (unm.map fun u => u * u).sum)) * u =
          a * (((List.zipWith (fun m r => m * r) matched ref).sum /
            ((matched.map fun m => m * m).sum + (unm.map fun u => u * u).sum)) * u) by ring,
        mul_pow]
    rw [hterm, hunm, sum_map_scale, sum_map_scale, ← mul_add,
      mul_div_mul_left _ _ (pow_ne_zero 2 (ne_of_gt ha))]
  · simp only [getCurrentRFactor, rValue, rScale, rNorm]
    rw [hnum, mul_div_assoc]

/-- C10 counterexample: with reference intensities (1,1), matched sums (1,0),
no unmatched peaks and `alpha = 10^120`, the original DR_ABS R factor is 1/2
(optimal scale 1 found by the scan), but after scaling every candidate error
equals `10^120`, which is not below the `1e100` sentinel, so the scan never
updates, the scale stays 1, and the R factor becomes
`(2*10^120 - 1)/(2*10^120) ≠ 1/2`. -/
theorem c10_scale_invariance_fails_at_sentinel :
    (getCurrentRFactor Rmethod.drAbs ([10 ^ 120, 10 ^ 120] : List ℚ) [1, 0] []).1 ≠
      (getCurrentRFactor Rmethod.drAbs ([1, 1] : List ℚ) [1, 0] []).1 := by
  norm_num [getCurrentRFactor, rValue, rScale, rNorm, drAbsScan, drAbsScanStep,
    absError, absD, List.zip_cons_cons]

/-- C10 witness: reference [2], matched [1], no unmatched peaks, `alpha = 3`;
the single candidate error is 0, far below the sentinel, so the amended
invariance applies. -/
theorem c10_scale_invariance_amended_app :
    (getCurrentRFactor Rmethod.drAbs (([2] : List ℚ).map (3 * ·)) [1] []).1 =
      (getCurrentRFactor Rmethod.drAbs ([2] : List ℚ) [1] []).1 ∧
    (getCurrentRFactor Rmethod.drAbs (([2] : List ℚ).map (3 * ·)) [1] []).2 =
      3 * (getCurrentRFactor Rmethod.drAbs ([2] : List ℚ) [1] []).2 ∧
    (getCurrentRFactor Rmethod.drSquared (([2] : List ℚ).map (3 * ·)) [1] []).1 =
      (getCurrentRFactor Rmethod.drSquared ([2] : List ℚ) [1] []).1 ∧
    (getCurrentRFactor Rmethod.drSquared (([2] : List ℚ).map (3 * ·)) [1] []).2 =
      3 * (getCurrentRFactor Rmethod.drSquared ([2] : List ℚ) [1] []).2 :=
  c10_scale_invariance_amended 3 [2] [1] [] (by norm_num)
    ⟨(2, 1), by simp [List.zip_cons_cons], by norm_num⟩
    (by
      intro q hq hq2
      simp only [List.zip_cons_cons, List.zip_nil_right, List.mem_singleton] at hq
      subst hq
      norm_num [absError, absD])

/-- The `RefinementParameters` enum of `CalculatedPattern` (diffraction.h,
lines 549-558). -/
inductive RefinementParameters
| scale
| basis
| background
| specdisp
| zeroshift
| wfactor
| uvfactors
| bfactors
| texture
| positions
deriving DecidableEq

/-- The staged part of `CalculatedPattern::rietveldRefinement` up to and
including the peak-width (WFACTOR) stage (diffraction.cpp, lines 235-336).
The box-constrained BFGS call `runRefinement` (dlib) is the abstract oracle
`step`, taking the current `_currentlyRefining` set and the model state and
returning the new state and the reported DR_ABS R factor; the initial-guess
computations (scale from maximum intensities, background least squares, peak
width from half-max crossings) are the abstract state updates `guessScale`,
`guessBackground`, `guessW`.  Returns (state after the width stage, R factor
reported by the final width run, `_currentlyRefining` at that point). -/
noncomputable def rietveldUpToWidth {σ : Type} (step : Finset RefinementParameters → σ → σ × ℝ)
    (guessScale guessBackground guessW : σ → σ) (maxLatChange : ℝ) (s0 : σ) :
    σ × ℝ × Finset RefinementParameters :=
  let sofar1 : Finset RefinementParameters := {RefinementParameters.scale}
  let s1 := (step {RefinementParameters.scale} (guessScale s0)).1
  let sofar2 := insert RefinementParameters.specdisp sofar1
  let s2 := (step {RefinementParameters.specdisp} s1).1
  let cur3 := {RefinementParameters.specdisp} ∪ sofar2
  let s3 := (step cur3 s2).1
  let cur4 : Finset RefinementParameters :=
    {RefinementParameters.background, RefinementParameters.scale}
  let sofar3 := insert RefinementParameters.background sofar2
  let s4 := (step cur4 (guessBackground s3)).1
  let cur5 := cur4 ∪ sofar3
  let s5 := (step cur5 s4).1
  let basisRes :=
    if 0 < maxLatChange then
      ((step {RefinementParameters.basis} s5).1,
       ({RefinementParameters.basis} : Finset RefinementParameters) ∪ cur5,
       insert RefinementParameters.basis sofar3)
    else (s5, cur5, sofar3)
  let cur7 := insert RefinementParameters.wfactor basisRes.2.1
  let sofar5 := insert RefinementParameters.wfactor basisRes.2.2
  let s7 := (step cur7 (guessW basisRes.1)).1
  let cur8 := cur7 ∪ sofar5
  let res := step cur8 s7
  (res.1, res.2, cur8)

/-- The stages of `CalculatedPattern::rietveldRefinement` after the
divergence guard (diffraction.cpp, lines 344-390): POSITIONS (if requested),
TEXTURE, BFACTORS (if requested), UVFACTORS, ZEROSHIFT; each inserts its
parameter kind and runs the optimizer once. -/
def rietveldLaterStages {σ : Type} (step : Finset RefinementParameters → σ → σ × ℝ)
    (refinePositions refineBfactors : Bool)
    (cur : Finset RefinementParameters) (sW : σ) : σ :=
  let posRes :=
    if refinePositions then
      ((step (insert RefinementParameters.positions cur) sW).1,
       insert RefinementParameters.positions cur)
    else (sW, cur)
  let cur2 := insert RefinementParameters.texture posRes.2
  let s2 := (step cur2 posRes.1).1
  let bfRes :=
    if refineBfactors then
      ((step (insert RefinementParameters.bfactors cur2) s2).1,
       insert RefinementParameters.bfactors cur2)
    else (s2, cur2)
  let cur4 := insert RefinementParameters.uvfactors bfRes.2
  let s4 := (step cur4 bfRes.1).1
  let cur5 := insert RefinementParameters.zeroshift cur4
  (step cur5 s4).1

/-- `CalculatedPattern::rietveldRefinement` (diffraction.cpp, lines 235-391):
the staged schedule with the divergence guard `if (curR > 0.9) return;`
placed after the width stage. -/
noncomputable def rietveldRefinement {σ : Type} (step : Finset RefinementParameters → σ → σ × ℝ)
    (guessScale guessBackground guessW : σ → σ) (maxLatChange : ℝ)
    (refinePositions refineBfactors : Bool) (s0 : σ) : σ :=
  if 0.9 < (rietveldUpToWidth step guessScale guessBackground guessW maxLatChange s0).2.1 then
    (rietveldUpToWidth step guessScale guessBackground guessW maxLatChange s0).1
  else
    rietveldLaterStages step refinePositions refineBfactors
      (rietveldUpToWidth step guessScale guessBackground guessW maxLatChange s0).2.2
      (rietveldUpToWidth step guessScale guessBackground guessW maxLatChange s0).1

/-- C7: if the R factor reported after the peak-width stage exceeds 0.9, the
driver aborts cleanly: the state after the width stage is returned unchanged
(no POSITIONS, TEXTURE, BFACTORS, UVFACTORS or ZEROSHIFT stage runs), and the
result does not depend on whether POSITIONS or BFACTORS refinement was
requested. -/
theorem c7_divergence_guard_aborts {σ : Type}
    (step : Finset RefinementParameters → σ → σ × ℝ)
    (guessScale guessBackground guessW : σ → σ) (maxLatChange : ℝ)
    (refinePositions refineBfactors refinePositions2 refineBfactors2 : Bool) (s0 : σ)
    (h : 0.9 <
      (rietveldUpToWidth step guessScale guessBackground guessW maxLatChange s0).2.1) :
    rietveldRefinement step guessScale guessBackground guessW maxLatChange
        refinePositions refineBfactors s0 =
      (rietveldUpToWidth step guessScale guessBackground guessW maxLatChange s0).1 ∧
    rietveldRefinement step guessScale guessBackground guessW maxLatChange
        refinePositions refineBfactors s0 =
      rietveldRefinement step guessScale guessBackground guessW maxLatChange
        refinePositions2 refineBfactors2 s0 := by
  unfold rietveldRefinement
  rw [if_pos h]
  exact ⟨rfl, by rw [if_pos h]⟩

/-- C7 witness: state type ℕ, every optimizer call increments the state and
reports R = 1 > 0.9; with `maxLatChange = 0` the width stage ends after seven
calls and the driver returns state 7 regardless of the requested flags. -/
theorem c7_divergence_guard_aborts_app :
    rietveldRefinement (fun _ n => (n + 1, (1 : ℝ))) id id id 0 true true 3 =
      (rietveldUpToWidth (fun _ n => (n + 1, (1 : ℝ))) id id id 0 3).1 ∧
    rietveldRefinement (fun _ n => (n + 1, (1 : ℝ))) id id id 0 true true 3 =
      rietveldRefinement (fun _ n => (n + 1, (1 : ℝ))) id id id 0 false false 3 :=
  c7_divergence_guard_aborts (fun _ n => (n + 1, (1 : ℝ))) id id id 0 true true false false 3
    (by norm_num [rietveldUpToWidth])

/-- A stored reflection (class `CalculatedPeak` plus its `DiffractionPeak`
base): angles, intensity, match index, Lorentz-polarization factor,
multiplicity, representative plane index, equivalent plane indices and their
reciprocal-lattice vectors. -/
structure Reflection where
  twoThetaRad : ℝ
  twoThetaDeg : ℝ
  peakIntensity : ℝ
  patternIndex : ℤ
  lpFactor : ℝ
  multiplicity : ℕ
  hkl : V3
  equivHKL : List V3
  recipLatVecs : List V3

/-- IEEE `sqrt` on doubles: `NaN` (modelled as `none`) for a negative
argument, the real square root otherwise. -/
noncomputable def sqrtD (x : ℝ) : Option ℝ :=
  if x < 0 then none else some (Real.sqrt x)

/-- `x < v` for a possibly-NaN right operand: every comparison with NaN is
false. -/
def ltO (x : ℝ) : Option ℝ → Prop
  | none => False
  | some v => x < v

noncomputable instance : ∀ (x : ℝ) (v : Option ℝ), Decidable (ltO x v)
  | _, none => isFalse fun h => h
  | x, some v => inferInstanceAs (Decidable (x < v))

/-- `v >= y` for a possibly-NaN left operand. -/
def geO : Option ℝ → ℝ → Prop
  | none, _ => False
  | some v, y => v ≥ y

noncomputable instance : ∀ (v : Option ℝ) (y : ℝ), Decidable (geO v y)
  | none, _ => isFalse fun h => h
  | some v, y => inferInstanceAs (Decidable (v ≥ y))

/-- `std::lower_bound` over the sorted grid: index of the first entry that is
not `< v` (0 for a NaN bound, since every comparison with NaN is false). -/
noncomputable def lowerBoundIdx : List ℝ → Option ℝ → ℕ
  | [], _ => 0
  | x :: rest, v => if ltO x v then lowerBoundIdx rest v + 1 else 0

/-- The pre-increment scan `while (twoTheta[++a] < minAngle) continue;` of
`CalculatedPattern::generatePeakSignal`, with explicit fuel (the C++ loop
reads past the lower bound; out-of-range reads are modelled by `getD`). -/
noncomputable def bumpPast (grid : List ℝ) (v : Option ℝ) : ℕ → ℕ → ℕ
  | a, 0 => a + 1
  | a, fuel + 1 =>
      if ltO (grid.getD (a + 1) 0) v then bumpPast grid v (a + 1) fuel else a + 1

/-- The accumulation loop
`while (twoTheta[a] < maxAngle && a < twoTheta.size()) { output[a] += ...; }`
of `CalculatedPattern::generatePeakSignal`. -/
noncomputable def addLoop (grid : List ℝ) (maxA : Option ℝ) (contrib : ℝ → ℝ) :
    ℕ → List ℝ → ℕ → List ℝ
  | _, out, 0 => out
  | a, out, fuel + 1 =>
      if ltO (grid.getD a 0) maxA ∧ a < grid.length then
        addLoop grid maxA contrib (a + 1)
          (out.set a (out.getD a 0 + contrib (grid.getD a 0))) fuel
      else out

/-- The Caglioti expression `H^2 = W + tan(theta)*(V + U*tan(theta))`
evaluated at `theta = centerRad/2` (diffraction.cpp, lines 1077-1078). -/
noncomputable def cagliotiHsq (U V W centerRad : ℝ) : ℝ :=
  W + Real.tan (centerRad / 2) * (V + U * Real.tan (centerRad / 2))

/-- The per-reflection body of `CalculatedPattern::generatePeakSignal`
(diffraction.cpp, lines 1073-1108): Caglioti width (`H = sqrt(...)`, NaN when
the expression is negative), mixing parameter, peak shift, `±6H` window,
`lower_bound` + pre-increment scan, and the pseudo-Voigt accumulation. -/
noncomputable def addPeakSignal (U V W eta0 eta1 eta2 : ℝ) (shifts : Fin 6 → ℝ)
    (maxTT : ℝ) (grid : List ℝ) (out : List ℝ) (p : Reflection) : List ℝ :=
  let center := p.twoThetaDeg
  let centerRad := p.twoThetaRad
  let H := sqrtD (cagliotiHsq U V W centerRad)
  let eta := eta0 + center * (eta1 + center * eta2)
  let shift := shifts 0 / Real.tan centerRad + shifts 1 / Real.sin centerRad +
    shifts 2 / Real.tan (centerRad / 2) + shifts 3 * Real.sin centerRad +
    shifts 4 * Real.cos centerRad + shifts 5
  let c := center + shift
  let minAngle := H.map fun h => c - 6 * h
  let maxAngle := H.map fun h => c + 6 * h
  if geO minAngle maxTT then out
  else
    let a0 := bumpPast grid minAngle (lowerBoundIdx grid minAngle) grid.length
    let h := H.getD 1
    addLoop grid maxAngle
      (fun x =>
        p.peakIntensity *
          (eta * (Real.sqrt (4 * Real.log 2) / Real.sqrt Real.pi / h *
              Real.exp (-(4 * Real.log 2) * ((x - c) / h) ^ 2)) +
            (1 - eta) * (2 / Real.pi / h / (1 + 4 * ((x - c) / h) ^ 2))))
      a0 out grid.length

/-- `CalculatedPattern::generatePeakSignal` (diffraction.cpp, lines
1065-1111): zero-initialized output, then each reflection's contribution. -/
noncomputable def generatePeakSignal (U V W eta0 eta1 eta2 : ℝ) (shifts : Fin 6 → ℝ)
    (maxTT : ℝ) (reflections : List Reflection) (grid : List ℝ) : List ℝ :=
  reflections.foldl (addPeakSignal U V W eta0 eta1 eta2 shifts maxTT grid)
    (List.replicate grid.length 0)

/-- The Chebyshev recurrence terms of
`CalculatedPattern::generateBackgroundSignal` from order 2 on. -/
noncomputable def chebRest (x : ℝ) : ℝ → ℝ → List ℝ → ℝ
  | _, _, [] => 0
  | t1, t2, c :: rest => c * (2 * x * t1 - t2) + chebRest x (2 * x * t1 - t2) t1 rest

/-- The Chebyshev background value at reduced variable `x`. -/
noncomputable def chebValue (ps : List ℝ) (x : ℝ) : ℝ :=
  match ps with
  | [] => 0
  | [c0] => c0
  | c0 :: c1 :: rest => c0 + c1 * x + chebRest x x 1 rest

/-- The polynomial background terms: running power starting at
`t ^ polyStart`, multiplied by `t` each step. -/
noncomputable def polyTerms (t : ℝ) : ℝ → List ℝ → ℝ
  | _, [] => 0
  | x, c :: rest => c * x + polyTerms t (x * t) rest

/-- `CalculatedPattern::generateBackgroundSignal` (diffraction.cpp, lines
1124-1155). -/
noncomputable def generateBackgroundSignal (useChebyshev : Bool) (bps : List ℝ)
    (polyStart : ℤ) (minTT maxTT : ℝ) (grid : List ℝ) : List ℝ :=
  match bps with
  | [] => List.replicate grid.length 0
  | _ =>
      grid.map fun t =>
        if useChebyshev then chebValue bps (2 * (t - minTT) / (maxTT - minTT) - 1)
        else polyTerms t (t ^ polyStart) bps

/-- `CalculatedPattern::getDiffractedIntensity` (diffraction.cpp, lines
1051-1058): background plus peak signal, pointwise. -/
noncomputable def getDiffractedIntensityCalc (useChebyshev : Bool) (bps : List ℝ)
    (polyStart : ℤ) (minTT maxTT U V W eta0 eta1 eta2 : ℝ) (shifts : Fin 6 → ℝ)
    (reflections : List Reflection) (grid : List ℝ) : List ℝ :=
  List.zipWith (· + ·)
    (generateBackgroundSignal useChebyshev bps polyStart minTT maxTT grid)
    (generatePeakSignal U V W eta0 eta1 eta2 shifts maxTT reflections grid)

/-- With a NaN upper window bound the accumulation loop never fires. -/
theorem addLoop_none (grid : List ℝ) (contrib : ℝ → ℝ) :
    ∀ (a : ℕ) (out : List ℝ) (fuel : ℕ), addLoop grid none contrib a out fuel = out := by
  intro a out fuel
  cases fuel with
  | zero => rfl
  | succ n =>
      unfold addLoop
      rw [if_neg]
      intro hc
      exact hc.1

/-- A reflection whose Caglioti expression is negative contributes nothing:
`H` is NaN, the window test `minAngle >= maxTwoTheta()` is false, the scan
stops immediately, and the accumulation loop condition is false at every
grid point. -/
theorem addPeakSignal_skip (U V W eta0 eta1 eta2 : ℝ) (shifts : Fin 6 → ℝ)
    (maxTT : ℝ) (grid out : List ℝ) (p : Reflection)
    (h : cagliotiHsq U V W p.twoThetaRad < 0) :
    addPeakSignal U V W eta0 eta1 eta2 shifts maxTT grid out p = out := by
  have hH : sqrtD (cagliotiHsq U V W p.twoThetaRad) = none := by
    unfold sqrtD
    rw [if_pos h]
  simp only [addPeakSignal, hH, Option.map_none']
  rw [if_neg (fun hc => hc : ¬geO none maxTT)]
  exact addLoop_none grid _ _ out grid.length

/-- C4: a reflection with negative Caglioti expression is skipped: it
contributes nothing to the peak signal at any grid angle, and the
contributions of all other reflections and of the background are exactly
those obtained without it. -/
theorem c4_negative_caglioti_peak_skipped (U V W eta0 eta1 eta2 : ℝ)
    (shifts : Fin 6 → ℝ) (maxTT : ℝ) (useChebyshev : Bool) (bps : List ℝ)
    (polyStart : ℤ) (minTT : ℝ) (grid : List ℝ) (l1 l2 : List Reflection)
    (p : Reflection) (h : cagliotiHsq U V W p.twoThetaRad < 0) :
    generatePeakSignal U V W eta0 eta1 eta2 shifts maxTT (l1 ++ p :: l2) grid =
      generatePeakSignal U V W eta0 eta1 eta2 shifts maxTT (l1 ++ l2) grid ∧
    getDiffractedIntensityCalc useChebyshev bps polyStart minTT maxTT U V W eta0 eta1 eta2
        shifts (l1 ++ p :: l2) grid =
      getDiffractedIntensityCalc useChebyshev bps polyStart minTT maxTT U V W eta0 eta1 eta2
        shifts (l1 ++ l2) grid := by
  have hsig : generatePeakSignal U V W eta0 eta1 eta2 shifts maxTT (l1 ++ p :: l2) grid =
      generatePeakSignal U V W eta0 eta1 eta2 shifts maxTT (l1 ++ l2) grid := by
    unfold generatePeakSignal
    rw [List.foldl_append, List.foldl_append, List.foldl_cons,
      addPeakSignal_skip U V W eta0 eta1 eta2 shifts maxTT grid _ p h]
  refine ⟨hsig, ?_⟩
  unfold getDiffractedIntensityCalc
  rw [hsig]

/-- The concrete reflection used in the C4 witness: Bragg angle 0, so the
Caglioti expression with `W = -1` is `-1 < 0`. -/
def pBad : Reflection := ⟨0, 0, 5, -1, 0, 1, zero3, [], []⟩

/-- C4 witness: with `U = V = 0`, `W = -1`, the reflection at angle 0 has a
negative Caglioti expression, and the synthesized signals on the grid (0,1)
with and without it coincide. -/
theorem c4_negative_caglioti_peak_skipped_app :
    generatePeakSignal 0 0 (-1) 0 0 0 (fun _ => 0) 100 ([] ++ pBad :: []) [0, 1] =
      generatePeakSignal 0 0 (-1) 0 0 0 (fun _ => 0) 100 ([] ++ []) [0, 1] ∧
    getDiffractedIntensityCalc true [] (-1) 0 100 0 0 (-1) 0 0 0 (fun _ => 0)
        ([] ++ pBad :: []) [0, 1] =
      getDiffractedIntensityCalc true [] (-1) 0 100 0 0 (-1) 0 0 0 (fun _ => 0)
        ([] ++ []) [0, 1] :=
  c4_negative_caglioti_peak_skipped 0 0 (-1) 0 0 0 (fun _ => 0) 100 true [] (-1) 0
    [0, 1] [] [] pBad
    (by norm_num [cagliotiHsq, pBad, Real.tan_zero])

/-- One symmetry operation as consumed by `calculatePeakLocations`: a
rotation and its list of translations (`Symmetry::operations()`). -/
structure SymOp where
  rotation : M3
  translations : List V3

/-- The inputs of `CalculatedPattern::calculatePeakLocations` (diffraction.cpp,
lines 802-968).  The basis matrices and `Symmetry::intrinsicTranslation` are
external collaborators and enter as parameters. -/
structure PeakLocParams where
  wavelength : ℝ
  minTwoTheta : ℝ
  maxTwoTheta : ℝ
  reducedInverse : M3
  unitPointToReduced : M3
  unitToReduced : M3
  basisInverse : M3
  symOps : List SymOp
  intrinsic : M3 → V3 → V3

/-- Column `i` of a matrix as a vector (`vec[j] = m(j, i)`, lines 812-815). -/
def colVec (m : M3) (i : Fin 3) : V3 := fun j => m j i

/-- `maxMag = 2*sin(toRadians(maxTwoTheta/2))/wavelength` (line 810). -/
noncomputable def maxMagOf (P : PeakLocParams) : ℝ :=
  2 * Real.sin (toRadians (P.maxTwoTheta / 2)) / P.wavelength

/-- `range[i] = abs(ceil(maxMag / |column i of reducedInverse|))` (line 815). -/
noncomputable def rangeOf (P : PeakLocParams) (i : Fin 3) : ℤ :=
  |Int.ceil (maxMagOf P / magV (colVec P.reducedInverse i))|

/-- The loop counter values `-r, -r+1, ..., r`. -/
def intRange (r : ℤ) : List ℤ :=
  (List.range (2 * r + 1).toNat).map fun k => -r + k

/-- An integer hkl triple as a real vector. -/
def intVec (a b c : ℤ) : V3 := ![(a : ℝ), (b : ℝ), (c : ℝ)]

/-- The reduced-cell candidate triples enumerated by the three nested loops
(lines 861-863), in loop order. -/
noncomputable def hklCandidates (P : PeakLocParams) : List V3 :=
  (intRange (rangeOf P 0)).flatMap fun a =>
    (intRange (rangeOf P 1)).flatMap fun b =>
      (intRange (rangeOf P 2)).map fun c => intVec a b c

/-- `convHKL = unitPointToReduced().transpose()` (line 819). -/
def convHKL (P : PeakLocParams) : M3 := P.unitPointToReduced.transpose

/-- `P = unitToReduced().transpose()` (line 822). -/
def matP (P : PeakLocParams) : M3 := P.unitToReduced.transpose

/-- `Q = P.inverse()` (line 823). -/
noncomputable def matQ (P : PeakLocParams) : M3 := (matP P)⁻¹

/-- Removal of the first identity among the conjugated operations
(lines 832-840). -/
noncomputable def removeFirstIdentity : List M3 → List M3
  | [] => []
  | m :: rest => if m = 1 then rest else m :: removeFirstIdentity rest

/-- The conjugated reciprocal-space rotations `(P*R*Q)^T` with the identity
removed (lines 821-840). -/
noncomputable def conjOps (P : PeakLocParams) : List M3 :=
  removeFirstIdentity
    (P.symOps.map fun op => (matP P * op.rotation * matQ P).transpose)

/-- Componentwise rounding of a symmetry image (line 872). -/
noncomputable def roundVec (v : V3) : V3 := fun i => ((round (v i) : ℤ) : ℝ)

/-- The lexicographic smaller-with-tolerance test marking a candidate as
non-canonical (lines 876-885). -/
def lexSmaller (s red : V3) : Prop :=
  s 0 < red 0 - 1 / 10000 ∨
    (|s 0 - red 0| < 1 / 10000 ∧
      (s 1 < red 1 - 1 / 10000 ∨
        (|s 1 - red 1| < 1 / 10000 ∧ s 2 < red 2 - 1 / 10000)))

noncomputable instance (s red : V3) : Decidable (lexSmaller s red) :=
  inferInstanceAs (Decidable (_ ∨ _))

/-- Componentwise near-equality used for the equivalent-point search
(lines 891-898). -/
def nearVec (u v : V3) : Prop :=
  |u 0 - v 0| < 1 / 10000 ∧ |u 1 - v 1| < 1 / 10000 ∧ |u 2 - v 2| < 1 / 10000

noncomputable instance (u v : V3) : Decidable (nearVec u v) :=
  inferInstanceAs (Decidable (_ ∧ _ ∧ _))

/-- The canonicality-and-multiplicity loop over the conjugated operations
(lines 864-903): starting from `mult = 1` and `equivPoints = [redHKL]`, each
rounded image that is lexicographically smaller discards the candidate
(`mult = 0`, modelled as `none`); a new image is appended and counted. -/
noncomputable def canonicalScan (red : V3) : List M3 → ℕ → List V3 → Option (ℕ × List V3)
  | [], mult, equiv => some (mult, equiv)
  | op :: rest, mult, equiv =>
      if lexSmaller (roundVec (op.mulVec red)) red then none
      else if ∃ e ∈ equiv, nearVec e (roundVec (op.mulVec red)) then
        canonicalScan red rest mult equiv
      else canonicalScan red rest (mult + 1) (equiv ++ [roundVec (op.mulVec red)])

/-- `|round(x) - x| > 1e-4` (line 932). -/
noncomputable def farFromInteger (x : ℝ) : Prop :=
  |((round x : ℤ) : ℝ) - x| > 1 / 10000

/-- The systematic-absence test (lines 918-941): some symmetry operation
fixes `hkl` componentwise within `1e-4` while one of its intrinsic
translations has a non-integer product with `hkl`. -/
noncomputable def systematicAbsence (P : PeakLocParams) (hkl : V3) : Prop :=
  ∃ op ∈ P.symOps,
    (|(op.rotation.mulVec hkl) 0 - hkl 0| ≤ 1 / 10000 ∧
     |(op.rotation.mulVec hkl) 1 - hkl 1| ≤ 1 / 10000 ∧
     |(op.rotation.mulVec hkl) 2 - hkl 2| ≤ 1 / 10000) ∧
    ∃ t ∈ op.translations, farFromInteger (dotV (P.intrinsic op.rotation t) hkl)

/-- The `CalculatedPeak` constructor together with `updatePeakPosition`
(diffraction.h, lines 145-172): multiplicity is the number of equivalent
planes, position and LP factor derive from the diffraction angle, and the
`DiffractionPeak(-1, -1)` base leaves intensity -1 and pattern index -1. -/
noncomputable def mkCalculatedPeak (P : PeakLocParams) (hkl : V3) (equivHKL : List V3) :
    Reflection :=
  { twoThetaRad := twoThetaRadOf P.basisInverse hkl P.wavelength
    twoThetaDeg := toDegrees (twoThetaRadOf P.basisInverse hkl P.wavelength)
    peakIntensity := -1
    patternIndex := -1
    lpFactor := getLPFactor (twoThetaRadOf P.basisInverse hkl P.wavelength / 2)
    multiplicity := equivHKL.length
    hkl := hkl
    equivHKL := equivHKL
    recipLatVecs := equivHKL.map (P.basisInverse.mulVec ·) }

/-- The per-candidate body of `calculatePeakLocations` (lines 864-956):
canonicality scan, conversion to the unit cell, the systematic-absence test
(computed but NOT used to drop the reflection: the `continue` on absence at
lines 943-945 is commented out in the source), the angular-window filter, and
peak construction. -/
noncomputable def buildReflection (P : PeakLocParams) (red : V3) : Option Reflection :=
  match canonicalScan red (conjOps P) 1 [red] with
  | none => none
  | some (_, equivPts) =>
      let hkl := (convHKL P).mulVec red
      let equivHKL := equivPts.map ((convHKL P).mulVec ·)
      let _found := systematicAbsence P hkl
      let twoTheta := 2 * toDegrees (getDiffractionAngle P.basisInverse hkl P.wavelength)
      if twoTheta < P.minTwoTheta ∨ twoTheta > P.maxTwoTheta then none
      else some (mkCalculatedPeak P hkl equivHKL)

/-- Ordering of reflections by `TwoThetaDeg` (`DiffractionPeak::operator<`,
used by the final `std::sort`). -/
def degLE (a b : Reflection) : Prop := a.twoThetaDeg ≤ b.twoThetaDeg

noncomputable instance : DecidableRel degLE :=
  fun a b => inferInstanceAs (Decidable (_ ≤ _))

instance : IsTotal Reflection degLE := ⟨fun a b => le_total a.twoThetaDeg b.twoThetaDeg⟩

instance : IsTrans Reflection degLE := ⟨fun _ _ _ h1 h2 => le_trans h1 h2⟩

/-- `CalculatedPattern::calculatePeakLocations` (diffraction.cpp, lines
802-968): enumerate the candidates, build the surviving reflections, and
sort ascending by angle. -/
noncomputable def calculatePeakLocations (P : PeakLocParams) : List Reflection :=
  List.insertionSort degLE ((hklCandidates P).filterMap (buildReflection P))

/-- The canonicality scan never empties the equivalent-point list. -/
theorem canonicalScan_snd_ne_nil (red : V3) :
    ∀ (ops : List M3) (mult : ℕ) (equiv : List V3) (res : ℕ × List V3),
      canonicalScan red ops mult equiv = some res → equiv ≠ [] → res.2 ≠ [] := by
  intro ops
  induction ops with
  | nil =>
      intro mult equiv res h hne
      unfold canonicalScan at h
      have := Option.some.inj h
      rw [← this]
      exact hne
  | cons op rest ih =>
      intro mult equiv res h hne
      unfold canonicalScan at h
      split_ifs at h with h1 h2
      · exact ih mult equiv res h hne
      · exact ih (mult + 1) (equiv ++ [roundVec (op.mulVec red)]) res h (by simp)

/-- Degree conversion is linear. -/
theorem toDegrees_two_mul (x : ℝ) : toDegrees (2 * x) = 2 * toDegrees x := by
  unfold toDegrees
  ring

/-- C5: every reflection produced by the peak enumerator lies inside the
angular window, its multiplicity is the number of equivalent planes and is
at least 1, and the output is sorted ascending by `two_theta_deg`. -/
theorem c5_window_multiplicity_sorted (P : PeakLocParams) :
    (calculatePeakLocations P).Forall (fun p =>
      P.minTwoTheta ≤ p.twoThetaDeg ∧ p.twoThetaDeg ≤ P.maxTwoTheta ∧
      p.multiplicity = p.equivHKL.length ∧ 1 ≤ p.multiplicity) ∧
    (calculatePeakLocations P).Sorted degLE := by
  constructor
  · rw [List.forall_iff_forall_mem]
    intro p hp
    unfold calculatePeakLocations at hp
    rw [List.mem_insertionSort, List.mem_filterMap] at hp
    obtain ⟨red, _hred, hbuild⟩ := hp
    unfold buildReflection at hbuild
    cases hscan : canonicalScan red (conjOps P) 1 [red] with
    | none =>
        rw [hscan] at hbuild
        cases hbuild
    | some pr =>
        obtain ⟨m, equivPts⟩ := pr
        rw [hscan] at hbuild
        simp only at hbuild
        by_cases hwin :
          2 * toDegrees (getDiffractionAngle P.basisInverse ((convHKL P).mulVec red)
              P.wavelength) < P.minTwoTheta ∨
          2 * toDegrees (getDiffractionAngle P.basisInverse ((convHKL P).mulVec red)
              P.wavelength) > P.maxTwoTheta
        · rw [if_pos hwin] at hbuild
          cases hbuild
        · rw [if_neg hwin] at hbuild
          have hpk := Option.some.inj hbuild
          rw [not_or, not_lt, not_lt] at hwin
          have hdeg : p.twoThetaDeg =
              2 * toDegrees (getDiffractionAngle P.basisInverse ((convHKL P).mulVec red)
                P.wavelength) := by
            rw [← hpk]
            show toDegrees (twoThetaRadOf P.basisInverse ((convHKL P).mulVec red)
              P.wavelength) = _
            unfold twoThetaRadOf
            exact toDegrees_two_mul _
          refine ⟨by rw [hdeg]; exact hwin.1, by rw [hdeg]; exact hwin.2, ?_, ?_⟩
          · rw [← hpk]
            rfl
          · rw [← hpk]
            show 1 ≤ (equivPts.map ((convHKL P).mulVec ·)).length
            rw [List.length_map]
            have hne := canonicalScan_snd_ne_nil red (conjOps P) 1 [red]
              (m, equivPts) hscan (by simp)
            exact Nat.one_le_iff_ne_zero.mpr
              (fun hz => hne (List.length_eq_zero.mp hz))
  · exact List.sorted_insertionSort degLE _

/-- C6: the peak enumerator never drops a reflection because of a systematic
absence — a candidate that survives the canonicality scan and the angular
window is included in the output list even when the absence test succeeds
for it (the absence value is computed for diagnostics only; the `continue`
that would drop it is commented out in the source). -/
theorem c6_absence_not_dropped (P : PeakLocParams) (red : V3) (pk : Reflection)
    (hmem : red ∈ hklCandidates P)
    (hbuild : buildReflection P red = some pk)
    (habs : systematicAbsence P ((convHKL P).mulVec red)) :
    pk ∈ calculatePeakLocations P := by
  unfold calculatePeakLocations
  rw [List.mem_insertionSort]
  exact List.mem_filterMap.mpr ⟨red, hmem, hbuild⟩

/-- The translation (1/2, 0, 0) of the C6 witness operation. -/
noncomputable def tHalf : V3 := ![1 / 2, 0, 0]

/-- Concrete enumerator inputs for the C6 witness: identity basis matrices,
wavelength 1, window 0..180 degrees, and one symmetry operation whose
rotation is the identity and whose translation is (1/2, 0, 0); the intrinsic
translation of such an operation is the translation itself. -/
noncomputable def paramsC6 : PeakLocParams :=
  { wavelength := 1
    minTwoTheta := 0
    maxTwoTheta := 180
    reducedInverse := 1
    unitPointToReduced := 1
    unitToReduced := 1
    basisInverse := 1
    symOps := [⟨1, [tHalf]⟩]
    intrinsic := fun _ t => t }

/-- The conjugated operation list of the witness parameters is empty: the
only rotation conjugates to the identity, which is removed. -/
theorem conjOps_paramsC6 : conjOps paramsC6 = [] := by
  have hP : matP paramsC6 = 1 := by
    unfold matP paramsC6
    exact Matrix.transpose_one
  have hQ : matQ paramsC6 = 1 := by
    unfold matQ
    rw [hP]
    exact inv_one
  unfold conjOps
  simp only [hP, hQ, one_mul, mul_one]
  show removeFirstIdentity [(1 : M3).transpose] = []
  rw [Matrix.transpose_one]
  unfold removeFirstIdentity
  rw [if_pos rfl]

/-- The magnitude of the witness candidate (1,0,0). -/
theorem magV_c6 : magV (intVec 1 0 0) = 1 := by
  have h0 : intVec 1 0 0 0 = 1 := by norm_num [intVec]
  have h1 : intVec 1 0 0 1 = 0 := by norm_num [intVec]
  have h2 : intVec 1 0 0 2 = 0 := by norm_num [intVec]
  unfold magV dotV
  rw [h0, h1, h2]
  norm_num

/-- The witness candidate diffracts at half-angle pi/6 (Bragg angle 60
degrees). -/
theorem angle_c6 : getDiffractionAngle 1 (intVec 1 0 0) 1 = Real.pi / 6 := by
  have harg : asinArg 1 (intVec 1 0 0) 1 = 1 / 2 := by
    unfold asinArg
    rw [Matrix.one_mulVec, magV_c6]
    norm_num
  unfold getDiffractionAngle
  rw [harg, if_pos (by norm_num)]
  rw [← Real.sin_pi_div_six]
  have hpi := Real.pi_pos
  exact Real.arcsin_sin (by linarith) (by linarith)

/-- Degrees of the witness angle. -/
theorem deg_c6 : 2 * toDegrees (Real.pi / 6) = 60 := by
  unfold toDegrees
  have hpi := Real.pi_ne_zero
  field_simp
  ring

/-- The per-axis enumeration range of the witness parameters is 2. -/
theorem rangeOf_paramsC6 (i : Fin 3) : rangeOf paramsC6 i = 2 := by
  have hmag : maxMagOf paramsC6 = 2 := by
    unfold maxMagOf toRadians paramsC6
    rw [show (180 : ℝ) / 2 * Real.pi / 180 = Real.pi / 2 by ring, Real.sin_pi_div_two]
    norm_num
  have hcol : magV (colVec (paramsC6.reducedInverse) i) = 1 := by
    show magV (colVec 1 i) = 1
    unfold magV dotV colVec
    fin_cases i <;>
      simp [Matrix.one_apply] <;> norm_num
  unfold rangeOf
  rw [hmag, hcol]
  norm_num

/-- Membership of the witness candidate in the enumeration. -/
theorem mem_c6 : intVec 1 0 0 ∈ hklCandidates paramsC6 := by
  unfold hklCandidates
  rw [rangeOf_paramsC6 0, rangeOf_paramsC6 1, rangeOf_paramsC6 2]
  refine List.mem_flatMap.mpr ⟨1, by decide, ?_⟩
  refine List.mem_flatMap.mpr ⟨0, by decide, ?_⟩
  exact List.mem_map.mpr ⟨0, by decide, rfl⟩

/-- The body of the enumerator accepts the witness candidate and produces the
expected reflection. -/
theorem build_c6 :
    buildReflection paramsC6 (intVec 1 0 0) =
      some (mkCalculatedPeak paramsC6 (intVec 1 0 0) [intVec 1 0 0]) := by
  have hscan : canonicalScan (intVec 1 0 0) (conjOps paramsC6) 1 [intVec 1 0 0] =
      some (1, [intVec 1 0 0]) := by
    rw [conjOps_paramsC6]
    rfl
  have hconv : convHKL paramsC6 = 1 := by
    unfold convHKL paramsC6
    exact Matrix.transpose_one
  have htheta :
      2 * toDegrees (getDiffractionAngle paramsC6.basisInverse
        ((convHKL paramsC6).mulVec (intVec 1 0 0)) paramsC6.wavelength) = 60 := by
    rw [hconv, Matrix.one_mulVec]
    show 2 * toDegrees (getDiffractionAngle 1 (intVec 1 0 0) 1) = 60
    rw [angle_c6, deg_c6]
  unfold buildReflection
  rw [hscan]
  simp only
  rw [htheta, if_neg (by norm_num [paramsC6] :
    ¬((60 : ℝ) < paramsC6.minTwoTheta ∨ (60 : ℝ) > paramsC6.maxTwoTheta))]
  rw [hconv, Matrix.one_mulVec]
  simp [Matrix.one_mulVec]

/-- The witness candidate is a systematic absence: the identity rotation
fixes it and the intrinsic translation (1/2,0,0) has the non-integer product
1/2 with it. -/
theorem absence_c6 : systematicAbsence paramsC6 ((convHKL paramsC6).mulVec (intVec 1 0 0)) := by
  have hconv : convHKL paramsC6 = 1 := by
    unfold convHKL paramsC6
    exact Matrix.transpose_one
  rw [hconv, Matrix.one_mulVec]
  refine ⟨⟨1, [tHalf]⟩, by simp [paramsC6], ?_, ⟨tHalf, by simp, ?_⟩⟩
  · rw [Matrix.one_mulVec]
    norm_num
  · show farFromInteger (dotV tHalf (intVec 1 0 0))
    have hdot : dotV tHalf (intVec 1 0 0) = 1 / 2 := by
      have h0 : tHalf 0 = 1 / 2 := rfl
      have h1 : tHalf 1 = 0 := rfl
      have h2 : tHalf 2 = 0 := rfl
      have g0 : intVec 1 0 0 0 = 1 := by norm_num [intVec]
      unfold dotV
      rw [h0, h1, h2, g0]
      ring
    unfold farFromInteger
    rw [hdot]
    norm_num [round_eq]
    rw [abs_of_nonneg (by norm_num : (0 : ℝ) ≤ 1 / 2)]
    norm_num

/-- C6 witness: the absent reflection (1,0,0) at 60 degrees is retained in
the enumerator output. -/
theorem c6_absence_not_dropped_app :
    mkCalculatedPeak paramsC6 (intVec 1 0 0) [intVec 1 0 0] ∈
      calculatePeakLocations paramsC6 :=
  c6_absence_not_dropped paramsC6 (intVec 1 0 0)
    (mkCalculatedPeak paramsC6 (intVec 1 0 0) [intVec 1 0 0])
    mem_c6 build_c6 absence_c6

/-- `CalculatedPeak::getTexturingFactor` (diffraction.h, lines 819-832):
the March-Dollase texturing factor over the peak's equivalent
reciprocal-lattice vectors. -/
noncomputable def getTexturingFactor (preferredOrientation : V3) (tau : ℝ)
    (recipLatticeVectors : List V3) : ℝ :=
  ((recipLatticeVectors.map fun r =>
      Real.rpow
        (tau * tau *
            (dotV preferredOrientation r / magV preferredOrientation / magV r) ^ 2 +
          (1 - (dotV preferredOrientation r / magV preferredOrientation / magV r) ^ 2) / tau)
        (-(3 : ℝ) / 2)).sum) /
    recipLatticeVectors.length

/-- `CalculatedPeak::updateCalculatedIntensity` (diffraction.cpp, lines
994-1004): `|F|^2` at half the stored angle, multiplied by the LP factor,
the multiplicity, and the texturing factor (no scale factor stored). -/
noncomputable def updateCalculatedIntensity (method : DMethod) (wavelength : ℝ)
    (orbits : List OrbitAtoms) (p : Reflection) (BFactors : List ℝ)
    (atfParams : List (ℕ → ℝ)) (preferredOrientation : V3)
    (texturingStrength : ℝ) : Reflection :=
  { p with
    peakIntensity :=
      structureFactorSquared method wavelength orbits (p.twoThetaRad / 2) p.hkl
          BFactors atfParams *
        p.lpFactor * (p.multiplicity : ℝ) *
        getTexturingFactor preferredOrientation texturingStrength p.recipLatVecs }

/-- The reflection used in the C1 counter-input: stored angle pi (half-angle
pi/2), LP factor 1, multiplicity 1, representative plane (0,0,0) and one
equivalent reciprocal vector (1,0,0). -/
noncomputable def pC1 : Reflection :=
  ⟨Real.pi, 180, -1, -1, 1, 1, zero3, [zero3], [intVec 1 0 0]⟩

/-- The texturing factor of the C1 input is 1 (preferred orientation aligned
with the single reciprocal vector, strength 1). -/
theorem texturing_c1 : getTexturingFactor (intVec 1 0 0) 1 [intVec 1 0 0] = 1 := by
  have hd : dotV (intVec 1 0 0) (intVec 1 0 0) = 1 := by norm_num [dotV, intVec]
  unfold getTexturingFactor
  rw [List.map_cons, List.map_nil, List.sum_cons, List.sum_nil, hd, magV_c6]
  norm_num [Real.one_rpow]

/-- C1: the integrated intensity computed by `updateCalculatedIntensity`
does not equal `|F|^2 * LP * multiplicity * T_hkl` with `|F|^2` as the claim
states it: at wavelength 1, stored angle pi (theta = pi/2), one
fully-occupied atom at the origin with constant form factor 1 and B factor
2, LP factor and multiplicity 1 and texturing factor 1, the code computes
`exp(-1/2)` while the claimed formula gives `exp(-4)`: the code passes the B
factor where `thermalFactor` expects the wavelength. -/
theorem c1_thermal_factor_divergence :
    (updateCalculatedIntensity DMethod.xray 1 [orbitO] pC1 [2] [atfConst]
        (intVec 1 0 0) 1).peakIntensity ≠
      structureFactorSquaredSpec DMethod.xray 1 [orbitO] (pC1.twoThetaRad / 2) pC1.hkl
          [2] [atfConst] *
        pC1.lpFactor * (pC1.multiplicity : ℝ) *
        getTexturingFactor (intVec 1 0 0) 1 pC1.recipLatVecs := by
  intro h
  apply sf_code_ne_spec
  have hrad : pC1.twoThetaRad = Real.pi := rfl
  have hhkl : pC1.hkl = zero3 := rfl
  have hlp : pC1.lpFactor = 1 := rfl
  have hmult : (pC1.multiplicity : ℝ) = 1 := by
    show ((1 : ℕ) : ℝ) = 1
    norm_num
  have hrecip : pC1.recipLatVecs = [intVec 1 0 0] := rfl
  unfold updateCalculatedIntensity at h
  simp only [hrad, hhkl, hlp, hmult, hrecip, texturing_c1, mul_one] at h
  exact h
